import Mathlib

/-!
Verification development for the goose FFI example layer and its reply
orchestration contract.  The Python sources under
`crates/goose-ffi/examples/` are embedded shallowly: pure helpers become
Lean functions, foreign library calls become explicit environment
parameters, Python exceptions become explicit `Except`/`Option` values,
and raw C pointers become `Option Bytes` fields together with explicit
free counters.  The Rust reply state machine itself is not part of the
Python sources; where a claim is decided by that machine it is modelled
from the specification (see the doc comments marked `Modelled from the
spec:`).
-/

namespace GooseFFI

/-- A byte sequence handed across the FFI boundary; each entry is one
byte value (0–255). -/
abbrev Bytes := List Nat

/-- Whether a byte is a UTF-8 continuation byte (`10xxxxxx`). -/
def isCont (b : Nat) : Bool := decide (0x80 ≤ b) && decide (b ≤ 0xBF)

/-- Strict UTF-8 decoding of a byte sequence into code points, mirroring
Python's `bytes.decode('utf-8')`: `none` models a raised
`UnicodeDecodeError`.  Overlong encodings, surrogates and values above
U+10FFFF are rejected as in RFC 3629. -/
def utf8Chars : List Nat → Option (List Char)
  | [] => some []
  | b :: rest =>
    if b < 0x80 then
      (utf8Chars rest).map (fun cs => Char.ofNat b :: cs)
    else if 0xC2 ≤ b ∧ b ≤ 0xDF then
      match rest with
      | b2 :: rest2 =>
        if isCont b2 then
          (utf8Chars rest2).map (fun cs =>
            Char.ofNat ((b - 0xC0) * 0x40 + (b2 - 0x80)) :: cs)
        else none
      | [] => none
    else if 0xE0 ≤ b ∧ b ≤ 0xEF then
      match rest with
      | b2 :: b3 :: rest2 =>
        let lo2 : Nat := if b = 0xE0 then 0xA0 else 0x80
        let hi2 : Nat := if b = 0xED then 0x9F else 0xBF
        if (decide (lo2 ≤ b2) && decide (b2 ≤ hi2)) && isCont b3 then
          (utf8Chars rest2).map (fun cs =>
            Char.ofNat ((b - 0xE0) * 0x1000 + (b2 - 0x80) * 0x40 + (b3 - 0x80)) :: cs)
        else none
      | _ => none
    else if 0xF0 ≤ b ∧ b ≤ 0xF4 then
      match rest with
      | b2 :: b3 :: b4 :: rest2 =>
        let lo2 : Nat := if b = 0xF0 then 0x90 else 0x80
        let hi2 : Nat := if b = 0xF4 then 0x8F else 0xBF
        if ((decide (lo2 ≤ b2) && decide (b2 ≤ hi2)) && isCont b3) && isCont b4 then
          (utf8Chars rest2).map (fun cs =>
            Char.ofNat ((b - 0xF0) * 0x40000 + (b2 - 0x80) * 0x1000 +
              (b3 - 0x80) * 0x40 + (b4 - 0x80)) :: cs)
        else none
      | _ => none
    else none

/-- Strict UTF-8 decoding to a string; `none` models a raised
`UnicodeDecodeError`. -/
def utf8Decode (bs : Bytes) : Option String :=
  (utf8Chars bs).map (fun cs => String.mk cs)

/-- The bytes of an ASCII string, used to build concrete boundary
buffers in examples. -/
def asciiBytes (s : String) : Bytes := s.data.map Char.toNat

/-- A parsed JSON value, the result of Python's `json.loads`. -/
inductive Json where
  | null : Json
  | bool (b : Bool) : Json
  | num (n : Int) : Json
  | str (s : String) : Json
  | arr (items : List Json) : Json
  | obj (fields : List (String × Json)) : Json
deriving Repr

mutual

/-- Structural equality test on JSON values (Python `==` on the values
`json.loads` produces). -/
def Json.beq : Json → Json → Bool
  | .null, .null => true
  | .bool a, .bool b => a == b
  | .num a, .num b => a == b
  | .str a, .str b => a == b
  | .arr a, .arr b => Json.beqList a b
  | .obj a, .obj b => Json.beqFields a b
  | _, _ => false

/-- Elementwise equality test on JSON arrays. -/
def Json.beqList : List Json → List Json → Bool
  | [], [] => true
  | x :: xs, y :: ys => Json.beq x y && Json.beqList xs ys
  | _, _ => false

/-- Elementwise equality test on JSON object fields. -/
def Json.beqFields : List (String × Json) → List (String × Json) → Bool
  | [], [] => true
  | (k1, v1) :: xs, (k2, v2) :: ys =>
    (k1 == k2 && Json.beq v1 v2) && Json.beqFields xs ys
  | _, _ => false

end

mutual

/-- `Json.beq` decides equality. -/
theorem Json.beq_iff : ∀ a b : Json, Json.beq a b = true ↔ a = b
  | .null, .null => by simp [Json.beq]
  | .null, .bool _ | .null, .num _ | .null, .str _ | .null, .arr _ | .null, .obj _ =>
    by simp [Json.beq]
  | .bool _, .null | .bool _, .num _ | .bool _, .str _ | .bool _, .arr _ | .bool _, .obj _ =>
    by simp [Json.beq]
  | .bool a, .bool b => by simp [Json.beq]
  | .num _, .null | .num _, .bool _ | .num _, .str _ | .num _, .arr _ | .num _, .obj _ =>
    by simp [Json.beq]
  | .num a, .num b => by simp [Json.beq]
  | .str _, .null | .str _, .bool _ | .str _, .num _ | .str _, .arr _ | .str _, .obj _ =>
    by simp [Json.beq]
  | .str a, .str b => by simp [Json.beq]
  | .arr _, .null | .arr _, .bool _ | .arr _, .num _ | .arr _, .str _ | .arr _, .obj _ =>
    by simp [Json.beq]
  | .arr a, .arr b => by simp [Json.beq, Json.beqList_iff a b]
  | .obj _, .null | .obj _, .bool _ | .obj _, .num _ | .obj _, .str _ | .obj _, .arr _ =>
    by simp [Json.beq]
  | .obj a, .obj b => by simp [Json.beq, Json.beqFields_iff a b]

/-- `Json.beqList` decides equality of arrays. -/
theorem Json.beqList_iff : ∀ as bs : List Json, Json.beqList as bs = true ↔ as = bs
  | [], [] => by simp [Json.beqList]
  | [], _ :: _ => by simp [Json.beqList]
  | _ :: _, [] => by simp [Json.beqList]
  | x :: xs, y :: ys => by
    simp [Json.beqList, Json.beq_iff x y, Json.beqList_iff xs ys]

/-- `Json.beqFields` decides equality of field lists. -/
theorem Json.beqFields_iff :
    ∀ as bs : List (String × Json), Json.beqFields as bs = true ↔ as = bs
  | [], [] => by simp [Json.beqFields]
  | [], _ :: _ => by simp [Json.beqFields]
  | _ :: _, [] => by simp [Json.beqFields]
  | (k1, v1) :: xs, (k2, v2) :: ys => by
    simp [Json.beqFields, Json.beq_iff v1 v2, Json.beqFields_iff xs ys, and_assoc]

end

instance : DecidableEq Json := fun a b => decidable_of_iff _ (Json.beq_iff a b)

/-- Dictionary lookup, mirroring Python `dict.get(key)` on a parsed JSON
object (first binding wins; `json.loads` keeps the last duplicate key,
so object models here carry each key at most once). -/
def jLookup (fields : List (String × Json)) (k : String) : Option Json :=
  match fields with
  | [] => none
  | (k', v) :: rest => if k' = k then some v else jLookup rest k

/-- Whether a content item (a parsed JSON object) has `"type"` equal to
the given tag, as in `content.get("type") == "text"`. -/
def hasType (fields : List (String × Json)) (tag : String) : Bool :=
  match jLookup fields "type" with
  | some (.str s) => s = tag
  | _ => false

/-! ## Embedding of `handle_ffi.py`

`get_message_content` and `extract_tool_call` consume raw C pointers.
A pointer-valued struct field is modelled as `Option Bytes` (`none` is
the null pointer / cleared field); calling the supplied free function on
a pointer is modelled by a per-pointer free counter; Python exceptions
are the explicit failure branches of the decoding steps.  `json.loads`
is the foreign library function `parseJson` (returning `none` for a
raised `json.JSONDecodeError`). -/

/-- The value `get_message_content` returns, per source branch:
`"Empty response"` (null pointer), the newline-join of the text items,
the quote-stripped raw data, the raw data itself, or the
`"Error processing message: ..."` string produced by the outer
exception handler. -/
inductive GmcRet where
  | emptyResponse : GmcRet
  | joined (s : String) : GmcRet
  | stripped (s : String) : GmcRet
  | raw (s : String) : GmcRet
  | errorProcessing : GmcRet
deriving DecidableEq, Repr

/-- Observable outcome of `get_message_content`: the returned value, how
many times the free function was passed the message pointer, and the
value of `result.message` when the function returns. -/
structure GmcOut where
  ret : GmcRet
  freeCount : Nat
  messageField : Option Bytes
deriving Repr

/-- Python `msg_data.strip('"')`: remove every leading and trailing
double-quote character. -/
def stripQuotes (s : String) : String :=
  String.mk (((s.data.dropWhile (fun c => c = '"')).reverse.dropWhile
    (fun c => c = '"')).reverse)

/-- The list comprehension over `msg_obj.get("content", [])`: collect the
`"text"` values (default `""`) of items whose `"type"` is `"text"`.
Iterating over a non-dict item raises (`.get` on it fails), modelled as
`Except.error`. -/
def collectTextParts : List Json → Except Unit (List Json)
  | [] => .ok []
  | item :: rest =>
    match item with
    | .obj fs =>
      (collectTextParts rest).map (fun parts =>
        if hasType fs "text" then (jLookup fs "text").getD (.str "") :: parts
        else parts)
    | _ => .error ()

/-- Python `"\n".join(text_parts)`: joining raises `TypeError` when some
collected part is not a string. -/
def joinParts : List Json → Except Unit String
  | [] => .ok ""
  | [.str s] => .ok s
  | .str s :: rest => (joinParts rest).map (fun r => s ++ "\n" ++ r)
  | _ => .error ()

/-- The branch of `get_message_content` reached once the message bytes
have been decoded and the pointer freed: parse as JSON, extract the text
items, fall back to the raw (or quote-stripped) data, with every
uncaught exception landing in the outer handler
(`GmcRet.errorProcessing`). -/
def gmcBody (parseJson : String → Option Json) (msgData : String) : GmcRet :=
  match parseJson msgData with
  | none => .raw msgData
  | some j =>
    match j with
    | .obj fs =>
      match jLookup fs "content" with
      | none =>
        if msgData.startsWith "\"" && msgData.endsWith "\"" then
          .stripped (stripQuotes msgData)
        else .raw msgData
      | some (.arr items) =>
        match collectTextParts items with
        | .error _ => .errorProcessing
        | .ok parts =>
          if parts.isEmpty then
            if msgData.startsWith "\"" && msgData.endsWith "\"" then
              .stripped (stripQuotes msgData)
            else .raw msgData
          else
            match joinParts parts with
            | .error _ => .errorProcessing
            | .ok s => .joined s
      | some _ => .errorProcessing
    | _ => .errorProcessing

/-- Embedding of `handle_ffi.get_message_content(result, goose_free_fn)`.
The input is the `result.message` field; the output records the returned
value, the number of calls to the free function on that pointer, and the
field's final value. -/
def get_message_content (parseJson : String → Option Json)
    (message : Option Bytes) : GmcOut :=
  match message with
  | none => { ret := .emptyResponse, freeCount := 0, messageField := none }
  | some bytes =>
    match utf8Decode bytes with
    | none =>
      { ret := .errorProcessing, freeCount := 0, messageField := some bytes }
    | some msgData =>
      { ret := gmcBody parseJson msgData, freeCount := 1, messageField := none }

/-- The string value of a `GmcOut` as the caller sees it (the
`"Error processing message: {e}"` text is abstracted to its fixed
prefix). -/
def gmcString (o : GmcOut) : String :=
  match o.ret with
  | .emptyResponse => "Empty response"
  | .joined s => s
  | .stripped s => s
  | .raw s => s
  | .errorProcessing => "Error processing message"

/-- The three pointer fields of a `ToolCall` struct as consumed by
`extract_tool_call`. -/
structure ToolCallMem where
  id : Option Bytes
  tool_name : Option Bytes
  arguments_json : Option Bytes
deriving Repr

/-- Observable outcome of `extract_tool_call`: the returned triple, the
per-pointer free counts, and the final field values. -/
structure EtcOut where
  tool_id : Option String
  tool_name : Option String
  args : Json
  freeId : Nat
  freeName : Nat
  freeArgs : Nat
  fieldId : Option Bytes
  fieldName : Option Bytes
  fieldArgs : Option Bytes
deriving Repr

/-- The `except Exception` handler of `extract_tool_call`: free every
field that is still non-null, zero it, and return `(None, None, {})`.
Arguments are the field values at the point the exception was raised and
the free counts accumulated so far. -/
def etcHandler (fid fname fargs : Option Bytes) (cid cname cargs : Nat) : EtcOut :=
  { tool_id := none, tool_name := none, args := .obj []
    freeId := cid + (if fid.isSome then 1 else 0)
    freeName := cname + (if fname.isSome then 1 else 0)
    freeArgs := cargs + (if fargs.isSome then 1 else 0)
    fieldId := none, fieldName := none, fieldArgs := none }

/-- Final part of `extract_tool_call`: parse the arguments string when it
is non-null and non-empty (`if args_json:`), defaulting to `{}` when
parsing raises `json.JSONDecodeError`, and return the triple. -/
def etcFinish (parseJson : String → Option Json) (tid tname : Option String)
    (argsJson : Option String) (cid cname cargs : Nat) : EtcOut :=
  let args : Json :=
    match argsJson with
    | some s =>
      if s ≠ "" then
        match parseJson s with
        | some j => j
        | none => .obj []
      else .obj []
    | none => .obj []
  { tool_id := tid, tool_name := tname, args := args
    freeId := cid, freeName := cname, freeArgs := cargs
    fieldId := none, fieldName := none, fieldArgs := none }

/-- Third step of `extract_tool_call`: decode, free and zero the
`arguments_json` field when non-null; a decode failure raises into the
handler. -/
def etcArgsStep (parseJson : String → Option Json) (tc : ToolCallMem)
    (tid tname : Option String) (cid cname : Nat) : EtcOut :=
  match tc.arguments_json with
  | some bs =>
    match utf8Decode bs with
    | none => etcHandler none none (some bs) cid cname 0
    | some s => etcFinish parseJson tid tname (some s) cid cname 1
  | none => etcFinish parseJson tid tname none cid cname 0

/-- Second step of `extract_tool_call`: decode, free and zero the
`tool_name` field when non-null; a decode failure raises into the
handler. -/
def etcNameStep (parseJson : String → Option Json) (tc : ToolCallMem)
    (tid : Option String) (cid : Nat) : EtcOut :=
  match tc.tool_name with
  | some bs =>
    match utf8Decode bs with
    | none => etcHandler none (some bs) tc.arguments_json cid 0 0
    | some s => etcArgsStep parseJson tc tid (some s) cid 1
  | none => etcArgsStep parseJson tc tid none cid 0

/-- Embedding of `handle_ffi.extract_tool_call(tool_call, goose_free_fn)`:
extract the id, then the name, then the arguments, freeing and zeroing
each non-null field as it is consumed; any decode exception is caught by
the handler, which frees the remaining non-null fields and returns
`(None, None, {})`. -/
def extract_tool_call (parseJson : String → Option Json)
    (tc : ToolCallMem) : EtcOut :=
  match tc.id with
  | some bs =>
    match utf8Decode bs with
    | none => etcHandler (some bs) tc.tool_name tc.arguments_json 0 0 0
    | some s => etcNameStep parseJson tc (some s) 1
  | none => etcNameStep parseJson tc none 0

/-! ## Embedding of `tool_agent.calculator_callback`

The params dictionary maps keys to Python values.  The builtin `float`
is the environment parameter `floatE`; on failure it carries the message
of the raised exception (`str(e)`).  Numeric values are modelled exactly
(as rationals); which values convert is decided by `floatE`. -/

/-- A Python value stored in a params dictionary. -/
inductive PyVal where
  | num (q : ℚ) : PyVal
  | str (s : String) : PyVal
  | other : PyVal
deriving DecidableEq, Repr

/-- Python `params.get(key, default)` over an association list. -/
def pyGet (params : List (String × PyVal)) (k : String) (dflt : PyVal) : PyVal :=
  match params with
  | [] => dflt
  | (k', v) :: rest => if k' = k then v else pyGet rest k dflt

/-- Python `str(v)` as used in the f-strings of `calculator_callback`;
the rendering of a non-scalar value is abbreviated. -/
def pvStr : PyVal → String
  | .num q => toString q
  | .str s => s
  | .other => "object"

/-- The dictionary `calculator_callback` returns: either
`{"result": r}` or `{"error": msg}`. -/
inductive CalcOut where
  | result (q : ℚ) : CalcOut
  | error (msg : String) : CalcOut
deriving DecidableEq, Repr

/-- Whether a Python value equals a given string literal under `==`
(only equal when it is that string). -/
def pvIsStr (v : PyVal) (s : String) : Bool :=
  match v with
  | .str t => t = s
  | _ => false

/-- Embedding of `tool_agent.calculator_callback(params)`.  `floatE`
models the builtin `float` conversion (`.error` is the caught exception
with message `str(e)`); the whole body sits in a `try/except`, so the
function always returns a dictionary. -/
def calculator_callback (floatE : PyVal → Except String ℚ)
    (params : List (String × PyVal)) : CalcOut :=
  match floatE (pyGet params "a" (.num 0)) with
  | .error e => .error e
  | .ok a =>
    match floatE (pyGet params "b" (.num 0)) with
    | .error e => .error e
    | .ok b =>
      let operation := pyGet params "operation" (.str "")
      if pvIsStr operation "add" then .result (a + b)
      else if pvIsStr operation "subtract" then .result (a - b)
      else if pvIsStr operation "multiply" then .result (a * b)
      else if pvIsStr operation "divide" then
        if b = 0 then .error "Division by zero"
        else .result (a / b)
      else .error ("Unknown operation: " ++ pvStr operation)

/-! ## Embedding of `goose_agent.execute_tool`

`execute_tool(tool_name, args)` dispatches on the tool name.  The
builtin `eval` used by the calculator branch is the environment
parameter `evalE` (`.error` carries `str(e)` of the raised exception).
The calculator branch wraps its body in `try/except` and so never
raises; the weather branch calls `args.get` outside any handler, so a
non-dict `args` raises `AttributeError` out of `execute_tool`. -/

/-- Python `str(v)` over a parsed JSON value, as interpolated into the
f-strings of `execute_tool`; container renderings are abbreviated. -/
def pyStrJ : Json → String
  | .null => "None"
  | .bool b => if b then "True" else "False"
  | .num n => toString n
  | .str s => s
  | .arr _ => "[...]"
  | .obj _ => "dict"

/-- Abstract message of a Python `AttributeError` raised by calling
`.get` on a non-dict value. -/
def attrErrMsg : String := "AttributeError"

/-- Embedding of `goose_agent.execute_tool`; the result is the string
handed back as the tool result, and `.error` is an exception escaping
`execute_tool` into the caller. -/
def execute_tool (evalE : String → Except String String)
    (tool_name : String) (args : Json) : Except String String :=
  if tool_name = "calculator" then
    .ok (match args with
      | .obj fs =>
        let expression := (jLookup fs "expression").getD (.str "0")
        match evalE (pyStrJ expression) with
        | .ok r => "The result is: " ++ r
        | .error e => "Error calculating: " ++ e
      | _ => "Error calculating: " ++ attrErrMsg)
  else if tool_name = "weather" then
    match args with
    | .obj fs =>
      .ok ("Weather in " ++ pyStrJ ((jLookup fs "location").getD (.str "unknown")) ++
        " is currently sunny, 72Â°F.")
    | _ => .error attrErrMsg
  else .ok ("Unknown tool: " ++ tool_name)

/-! ## Embedding of `goose_agent.GooseAgent.send_message_non_streaming`

The driving loop of the streaming ("non-streaming with tools") variant.
Reply-state handles are positive naturals: `goose_agent_reply_begin`
yields handle 1, and each successful `goose_agent_reply_tool_result`
call allocates the next handle.  The foreign library's behaviour is the
environment `FFIEnv`: the result of the k-th `reply_step` call and
whether the k-th `reply_tool_result` call returns a non-null state.  The
interpreter records which handle every call was made on, which handles
were freed, and what was submitted back, so ownership claims become
statements about the trace. -/

/-- Whether one character list occurs inside another. -/
def listHasInfix (p : List Char) : List Char → Bool
  | [] => p.isEmpty
  | c :: rest => p.isPrefixOf (c :: rest) || listHasInfix p rest

/-- Python `sub in s` on strings. -/
def strContains (s sub : String) : Bool := listHasInfix sub.data s.data

/-- Python truthiness of an optional string: `None` and `""` are falsy
(`if not tool_id or not tool_name`). -/
def pyFalsy : Option String → Bool
  | none => true
  | some s => s = ""

/-- The status field of a `ReplyStepResult`. -/
inductive ReplyStatus where
  | complete : ReplyStatus
  | toolCallNeeded : ReplyStatus
  | error : ReplyStatus
deriving DecidableEq, Repr

/-- A `ReplyStepResult` struct as returned by
`goose_agent_reply_step`. -/
structure StepResultFFI where
  status : ReplyStatus
  message : Option Bytes
  tool_call : ToolCallMem
deriving Repr

/-- Behaviour of the foreign library and Python builtins during one
`send_message_non_streaming` call: `stepRes k` is the struct returned by
the k-th `reply_step` call, `toolResultOk k` tells whether the k-th
`reply_tool_result` call returns a non-null new state, `evalE` is the
builtin `eval`, `parseJson` is `json.loads`, and `isRetry` is the
`is_retry` argument. -/
structure FFIEnv where
  stepRes : Nat → StepResultFFI
  toolResultOk : Nat → Bool
  evalE : String → Except String String
  parseJson : String → Option Json
  isRetry : Bool

/-- How the driving loop ends: a returned response string, the 404
retry branch (a recursive `send_message_non_streaming` call), or fuel
exhaustion of the interpreter. -/
inductive LoopExit where
  | returned (response : String) : LoopExit
  | retry404 : LoopExit
  | fuelOut : LoopExit
deriving DecidableEq, Repr

/-- Interpreter state of a driving loop: the current reply-state handle,
the next handle to be allocated, the `reply_step` and
`reply_tool_result` call counters, and the recorded trace. -/
structure LoopState where
  h : Nat
  nextH : Nat
  k : Nat
  t : Nat
  stepHandles : List Nat
  toolResultHandles : List Nat
  allocated : List Nat
  submitted : List (String × String)
deriving Repr

/-- One full trace of a driving loop: every handle passed to
`reply_step` and to `reply_tool_result` in order, every allocated
reply-state handle, every handle passed to `reply_state_free`, the tool
results submitted back, and how the call ended. -/
structure LoopOut where
  stepHandles : List Nat
  toolResultHandles : List Nat
  allocated : List Nat
  freed : List Nat
  submitted : List (String × String)
  exit : LoopExit
deriving Repr

/-- The `while True` loop of `goose_agent.send_message_non_streaming`,
translated statement by statement.  On `TOOL_CALL_NEEDED` the code
computes `new_state = goose_agent_reply_tool_result(reply_state, ...)`
but never assigns it to `reply_state`, so the recursive call keeps the
old handle (`st.h` unchanged) while the new handle is merely recorded as
allocated. -/
def agentLoopGo (env : FFIEnv) : Nat → LoopState → LoopState × LoopExit
  | 0, st => (st, .fuelOut)
  | fuel + 1, st =>
    let result := env.stepRes st.k
    let st := { st with k := st.k + 1, stepHandles := st.stepHandles ++ [st.h] }
    match result.status with
    | .error =>
      let resp := gmcString (get_message_content env.parseJson result.message)
      (st, .returned (if resp.startsWith "Error:" then resp else "Error: " ++ resp))
    | .complete =>
      let resp := gmcString (get_message_content env.parseJson result.message)
      if strContains resp "404 Not Found" && !env.isRetry then (st, .retry404)
      else (st, .returned resp)
    | .toolCallNeeded =>
      let ex := extract_tool_call env.parseJson result.tool_call
      if pyFalsy ex.tool_id || pyFalsy ex.tool_name then
        (st, .returned "Error: Missing tool information")
      else
        match execute_tool env.evalE (ex.tool_name.getD "") ex.args with
        | .error e => (st, .returned ("Error processing tool call: " ++ e))
        | .ok toolResult =>
          let ok := env.toolResultOk st.t
          let st := { st with
            t := st.t + 1
            toolResultHandles := st.toolResultHandles ++ [st.h]
            submitted := st.submitted ++ [(ex.tool_id.getD "", toolResult)]
            allocated := if ok then st.allocated ++ [st.nextH] else st.allocated
            nextH := if ok then st.nextH + 1 else st.nextH }
          if ok then agentLoopGo env fuel st
          else (st, .returned "Error: Failed to process tool result")

/-- Embedding of the body of `send_message_non_streaming` after a
successful `goose_agent_reply_begin` (which yields handle 1): run the
loop, then execute the `finally` block, which frees the handle bound to
`reply_state` exactly once. -/
def send_message_non_streaming (env : FFIEnv) (fuel : Nat) : LoopOut :=
  let st0 : LoopState :=
    { h := 1, nextH := 2, k := 0, t := 0, stepHandles := []
      toolResultHandles := [], allocated := [1], submitted := [] }
  let (st, ex) := agentLoopGo env fuel st0
  { stepHandles := st.stepHandles, toolResultHandles := st.toolResultHandles
    allocated := st.allocated, freed := [st.h], submitted := st.submitted
    exit := ex }

/-! ## Embedding of `goose_agent.GooseAgent.send_message_non_yielding`

The single-call entry point.  The foreign
`goose_agent_reply_non_yielding` function is the environment parameter
`resp` (indexed by boundary-call number); the output records how many
boundary calls were made, the returned string (`.error ()` is a Python
exception propagating out of the method), and the final
`self.last_tool_request` dictionary, whose keys and values are the JSON
values taken from the response (`None` is modelled as `Json.null`). -/

/-- Update of `self.last_tool_request[tool_name] = tool_id` on the
dictionary, overwriting an existing binding in place. -/
def jAssocUpd : List (Json × Json) → Json → Json → List (Json × Json)
  | [], k, v => [(k, v)]
  | (k', v') :: rest, k, v =>
    if k' = k then (k', v) :: rest else (k', v') :: jAssocUpd rest k v

/-- Dictionary lookup on `self.last_tool_request`. -/
def jAssocFind : List (Json × Json) → Json → Option Json
  | [], _ => none
  | (k', v') :: rest, q => if k' = q then some v' else jAssocFind rest q

/-- The text and tool-request content items found by the scan
`for content in response_obj.get("content", [])`. -/
structure NyScan where
  texts : List Json
  requests : List Json
deriving Repr

/-- The scan over the content array: texts of `"text"` items,
`"toolRequest"` items themselves; a non-dict item raises
(`content.get` fails). -/
def nyScanContent : List Json → Except Unit NyScan
  | [] => .ok { texts := [], requests := [] }
  | item :: rest =>
    match item with
    | .obj fs =>
      (nyScanContent rest).map (fun sc =>
        if hasType fs "text" then
          { sc with texts := (jLookup fs "text").getD (.str "") :: sc.texts }
        else if hasType fs "toolRequest" then
          { sc with requests := item :: sc.requests }
        else sc)
    | _ => .error ()

/-- Python `"\n".join(text_parts) if text_parts else ""`. -/
def nyResponseText (texts : List Json) : Except Unit String :=
  if texts.isEmpty then .ok "" else joinParts texts

/-- Per-request extraction `req.get("id")`,
`req.get("toolCall", {}).get("value", {}).get("name")` and
`...get("arguments", {})`; `.get` on a non-dict intermediate raises. -/
def reqIdName : Json → Except Unit (Json × Json × Json)
  | .obj fs =>
    let tid := (jLookup fs "id").getD .null
    match (jLookup fs "toolCall").getD (.obj []) with
    | .obj tcfs =>
      match (jLookup tcfs "value").getD (.obj []) with
      | .obj vfs =>
        .ok (tid, (jLookup vfs "name").getD .null,
          (jLookup vfs "arguments").getD (.obj []))
      | _ => .error ()
    | _ => .error ()
  | _ => .error ()

/-- The recording loop over the tool requests: store each request's id
under its tool name in `self.last_tool_request`.  An exception partway
leaves the earlier updates in place, hence the partial map is returned
together with the success flag. -/
def nyRecordGo (m : List (Json × Json)) : List Json → List (Json × Json) × Bool
  | [] => (m, true)
  | req :: rest =>
    match reqIdName req with
    | .error _ => (m, false)
    | .ok (tid, tname, _) => nyRecordGo (jAssocUpd m tname tid) rest

/-- `execute_tool` as called from the auto-execute branch, where the
tool name is a raw JSON value: every `==` comparison with a string is
false for a non-string name, so dispatch falls through to the unknown
branch. -/
def executeToolJ (evalE : String → Except String String)
    (name : Json) (args : Json) : Except String String :=
  match name with
  | .str s => execute_tool evalE s args
  | _ => .ok ("Unknown tool: " ++ pyStrJ name)

/-- The auto-execute loop: re-extract each request and execute its
tool, collecting `(tool_id, result)` pairs; an exception (in extraction
or escaping `execute_tool`) propagates. -/
def nyAutoExec (evalE : String → Except String String) :
    List Json → Except Unit (List (Json × String))
  | [] => .ok []
  | req :: rest =>
    match reqIdName req with
    | .error _ => .error ()
    | .ok (tid, tname, targs) =>
      match executeToolJ evalE tname targs with
      | .error _ => .error ()
      | .ok r => (nyAutoExec evalE rest).map (fun l => (tid, r) :: l)

/-- Behaviour of the foreign library and `json.loads` during one
`send_message_non_yielding` call: `resp k` is the pointer returned by
the k-th `goose_agent_reply_non_yielding` call. -/
structure NyEnv where
  resp : Nat → Option Bytes
  parseJson : String → Option Json
  evalE : String → Except String String

/-- Observable outcome of `send_message_non_yielding`: number of
boundary calls, returned string (or a propagated exception), and the
final `self.last_tool_request` dictionary. -/
structure NyOut where
  boundaryCalls : Nat
  ret : Except Unit String
  lastToolRequest : List (Json × Json)
deriving Repr

/-- The nested second boundary call of the auto-execute branch: send the
collected tool responses, then extract the text of the final response
(falling back to its raw string). -/
def nySecondCall (parseJson : String → Option Json)
    (resp2 : Option Bytes) : Except Unit String :=
  match resp2 with
  | none => .ok "Error: NULL response from agent"
  | some b2 =>
    match utf8Decode b2 with
    | none => .error ()
    | some finalStr =>
      match parseJson finalStr with
      | none => .ok finalStr
      | some (.obj fs2) =>
        match jLookup fs2 "content" with
        | none => .ok finalStr
        | some (.arr items2) =>
          match collectTextParts items2 with
          | .error _ => .error ()
          | .ok parts =>
            if parts.isEmpty then .ok finalStr
            else
              match joinParts parts with
              | .error _ => .error ()
              | .ok s => .ok s
        | some _ => .error ()
      | some _ => .error ()

/-- Embedding of `GooseAgent.send_message_non_yielding`: one boundary
call, response decoding and parsing, the content scan, recording of
every tool request's id keyed by tool name, and (only when
`auto_execute_tools` is set) tool execution plus a second boundary
call. -/
def send_message_non_yielding (env : NyEnv) (autoExecute : Bool)
    (initMap : List (Json × Json)) : NyOut :=
  match env.resp 0 with
  | none =>
    { boundaryCalls := 1, ret := .ok "Error: NULL response from agent"
      lastToolRequest := initMap }
  | some bytes =>
    match utf8Decode bytes with
    | none => { boundaryCalls := 1, ret := .error (), lastToolRequest := initMap }
    | some responseStr =>
      match env.parseJson responseStr with
      | none =>
        { boundaryCalls := 1, ret := .ok responseStr, lastToolRequest := initMap }
      | some (.obj fs) =>
        let contentRes : Except Unit NyScan :=
          match jLookup fs "content" with
          | none => nyScanContent []
          | some (.arr items) => nyScanContent items
          | some _ => .error ()
        match contentRes with
        | .error _ =>
          { boundaryCalls := 1, ret := .error (), lastToolRequest := initMap }
        | .ok sc =>
          match nyResponseText sc.texts with
          | .error _ =>
            { boundaryCalls := 1, ret := .error (), lastToolRequest := initMap }
          | .ok responseText =>
            if sc.requests.isEmpty then
              { boundaryCalls := 1, ret := .ok responseText
                lastToolRequest := initMap }
            else
              match nyRecordGo initMap sc.requests with
              | (m, false) =>
                { boundaryCalls := 1, ret := .error (), lastToolRequest := m }
              | (m, true) =>
                if autoExecute then
                  match nyAutoExec env.evalE sc.requests with
                  | .error _ =>
                    { boundaryCalls := 1, ret := .error (), lastToolRequest := m }
                  | .ok toolResponses =>
                    if toolResponses.isEmpty then
                      { boundaryCalls := 1, ret := .ok responseText
                        lastToolRequest := m }
                    else
                      { boundaryCalls := 2
                        ret := nySecondCall env.parseJson (env.resp 1)
                        lastToolRequest := m }
                else
                  { boundaryCalls := 1, ret := .ok responseText
                    lastToolRequest := m }
      | some _ =>
        { boundaryCalls := 1, ret := .error (), lastToolRequest := initMap }

/-! ## The ReplyStateMachine

The rich approval-gated state machine (`create`, `start`, `advance`,
`approve_tool`, `deny_tool`, `get_current_message`, `get_state`) lives
in the foreign library; only its Python callers
(`end_to_end_example.py`) appear among the sources.  The operations the
claims exercise are therefore modelled from the specification (§3, §4.1,
§7): each definition's doc comment names the spec clause it follows.
The Tool Executor Port is instrumented with an invocation counter
(`execCount`) so executor call counts are observable. -/

namespace RSM

/-- Message role (spec §3). -/
inductive Role where
  | user : Role
  | assistant : Role
  | system : Role
deriving DecidableEq, Repr

/-- Content item: tagged variant `Text | ToolCallRequest |
ToolCallResult` with `outcome: Ok(payload) | Err(message)` (spec §3). -/
inductive ContentItem where
  | text (s : String) : ContentItem
  | toolCallRequest (id name : String) (args : Json) : ContentItem
  | toolCallResult (id : String) (outcome : Except String Json) : ContentItem
deriving Repr

/-- A conversation message: role plus ordered content items (spec §3;
the `created` timestamp plays no role in the claims). -/
structure Message where
  role : Role
  content : List ContentItem
deriving Repr

/-- A pending tool request (spec §3). -/
structure PendingToolRequest where
  id : String
  name : String
  args : Json
  requiresApproval : Bool
deriving Repr

/-- State-machine phase (spec §3). -/
inductive Phase where
  | ready : Phase
  | waitingForProvider : Phase
  | messageYielded : Phase
  | waitingForToolApproval : Phase
  | processingTools : Phase
  | completed : Phase
  | error : Phase
deriving DecidableEq, Repr

/-- The uniform outcome wrapper of every mutating boundary operation
(spec §3, §6). -/
structure AsyncResult where
  succeeded : Bool
  errorMessage : Option String
deriving DecidableEq, Repr

/-- Modelled from the spec: the turn's working state (§3) —
history, pending set, phase, last error — extended with the
`currentMessageDelivered` consumption mark of `get_current_message`
(§4.1) and the Tool Executor Port invocation counter used by the
testable properties (§8). -/
structure ReplyState where
  history : List Message
  pending : List PendingToolRequest
  phase : Phase
  lastError : Option String
  currentMessageDelivered : Bool
  execCount : Nat
deriving Repr

/-- Construction error of `create` (spec §4.1). -/
inductive CreateError where
  | invalidInput : CreateError
deriving DecidableEq, Repr

/-- Validation scan of one message's content items: requests add their
id to the seen set, and a result must reference an already seen request
id (spec §3 invariant). -/
def validItems (seen : List String) : List ContentItem → Option (List String)
  | [] => some seen
  | .text _ :: rest => validItems seen rest
  | .toolCallRequest id _ _ :: rest => validItems (seen ++ [id]) rest
  | .toolCallResult id _ :: rest =>
    if id ∈ seen then validItems seen rest else none

/-- Validation scan over the whole message list, threading the set of
request ids seen so far. -/
def validMessages (seen : List String) : List Message → Bool
  | [] => true
  | m :: rest =>
    match validItems seen m.content with
    | some seen2 => validMessages seen2 rest
    | none => false

/-- Modelled from the spec: `create(initial_messages) -> ReplyState`
(§4.1) — seeds history with initial phase `Ready`; fails with
`InvalidInput` if the list is empty or a `ToolCallResult` has no
matching prior request. -/
def create (initialMessages : List Message) : Except CreateError ReplyState :=
  if initialMessages.isEmpty then .error .invalidInput
  else if validMessages [] initialMessages then
    .ok { history := initialMessages, pending := [], phase := .ready
          lastError := none, currentMessageDelivered := false, execCount := 0 }
  else .error .invalidInput

/-- The most recent assistant message of a history. -/
def latestAssistant (history : List Message) : Option Message :=
  history.reverse.find? (fun m => m.role == .assistant)

/-- Modelled from the spec: `get_current_message(state)` (§4.1) —
valid in `MessageYielded`; returns and consumes the most recent
assistant message once; a second call before the phase changes again
returns none. -/
def get_current_message (s : ReplyState) : Option Message × ReplyState :=
  if s.phase = .messageYielded ∧ s.currentMessageDelivered = false then
    match latestAssistant s.history with
    | some m => (some m, { s with currentMessageDelivered := true })
    | none => (none, s)
  else (none, s)

/-- The message appended to history when a tool request resolves
(spec §4.1: results are carried as conversation data). -/
def resultMessage (id : String) (outcome : Except String Json) : Message :=
  { role := .user, content := [.toolCallResult id outcome] }

/-- Modelled from the spec: `approve_tool(state, id)` (§4.1, §7) —
valid only in `WaitingForToolApproval` for a pending id (otherwise a
protocol error that leaves the state unchanged); approval routes the
request to the Tool Executor Port unless the tool is absent from the
registry, in which case `ToolCallResult{Err("unknown tool")}` is
synthesized with no executor invocation; once the pending set empties
the phase moves to `ProcessingTools`. -/
def approve_tool (registry : List String)
    (executor : String → Json → Except String Json)
    (s : ReplyState) (id : String) : AsyncResult × ReplyState :=
  if s.phase ≠ .waitingForToolApproval then
    ({ succeeded := false
       errorMessage := some "approve_tool called in wrong phase" }, s)
  else
    match s.pending.find? (fun r => r.id == id) with
    | none =>
      ({ succeeded := false
         errorMessage := some "unknown tool request id" }, s)
    | some req =>
      let outcome : Except String Json × Nat :=
        if registry.contains req.name then
          match executor req.name req.args with
          | .ok payload => (.ok payload, 1)
          | .error e => (.error e, 1)
        else (.error "unknown tool", 0)
      let pending' := s.pending.filter (fun r => r.id != id)
      ({ succeeded := true, errorMessage := none },
       { s with history := s.history ++ [resultMessage id outcome.1]
                pending := pending'
                execCount := s.execCount + outcome.2
                phase := if pending'.isEmpty then .processingTools
                         else .waitingForToolApproval })

/-- Modelled from the spec: `deny_tool(state, id)` (§4.1) — valid only
in `WaitingForToolApproval` for a pending id (otherwise a protocol
error that leaves the state unchanged); denial appends
`ToolCallResult{Err("denied")}` without invoking the executor. -/
def deny_tool (s : ReplyState) (id : String) : AsyncResult × ReplyState :=
  if s.phase ≠ .waitingForToolApproval then
    ({ succeeded := false
       errorMessage := some "deny_tool called in wrong phase" }, s)
  else
    match s.pending.find? (fun r => r.id == id) with
    | none =>
      ({ succeeded := false
         errorMessage := some "unknown tool request id" }, s)
    | some _ =>
      let pending' := s.pending.filter (fun r => r.id != id)
      ({ succeeded := true, errorMessage := none },
       { s with history := s.history ++ [resultMessage id (.error "denied")]
                pending := pending'
                phase := if pending'.isEmpty then .processingTools
                         else .waitingForToolApproval })

end RSM

/-! ## Auxiliary predicates used by the claim statements -/

/-- Whether decoding the contents of a (possibly null) pointer field
raises: a null field never raises, a non-null field raises exactly when
its bytes are not valid UTF-8. -/
def decodeFails : Option Bytes → Bool
  | none => false
  | some bs => (utf8Decode bs).isNone

/-- Whether any extraction step of `extract_tool_call` raises on this
struct. -/
def etcFails (tc : ToolCallMem) : Bool :=
  decodeFails tc.id || decodeFails tc.tool_name || decodeFails tc.arguments_json

/-! ## Shared lemmas on `extract_tool_call` -/

/-- Free and zeroing behaviour of the tail step `etcFinish`. -/
theorem etcFinish_frees (parseJson : String → Option Json)
    (tid tname : Option String) (aj : Option String) (cid cname cargs : Nat) :
    (etcFinish parseJson tid tname aj cid cname cargs).freeId = cid ∧
    (etcFinish parseJson tid tname aj cid cname cargs).freeName = cname ∧
    (etcFinish parseJson tid tname aj cid cname cargs).freeArgs = cargs ∧
    (etcFinish parseJson tid tname aj cid cname cargs).fieldId = none ∧
    (etcFinish parseJson tid tname aj cid cname cargs).fieldName = none ∧
    (etcFinish parseJson tid tname aj cid cname cargs).fieldArgs = none :=
  ⟨rfl, rfl, rfl, rfl, rfl, rfl⟩

/-- Free and zeroing behaviour of the arguments step. -/
theorem etcArgsStep_frees (parseJson : String → Option Json) (tc : ToolCallMem)
    (tid tname : Option String) (cid cname : Nat) :
    (etcArgsStep parseJson tc tid tname cid cname).freeId = cid ∧
    (etcArgsStep parseJson tc tid tname cid cname).freeName = cname ∧
    (etcArgsStep parseJson tc tid tname cid cname).freeArgs
      = (if tc.arguments_json.isSome then 1 else 0) ∧
    (etcArgsStep parseJson tc tid tname cid cname).fieldId = none ∧
    (etcArgsStep parseJson tc tid tname cid cname).fieldName = none ∧
    (etcArgsStep parseJson tc tid tname cid cname).fieldArgs = none := by
  cases ha : tc.arguments_json with
  | none => simp [etcArgsStep, ha, etcFinish]
  | some bs =>
    cases hd : utf8Decode bs <;>
      simp [etcArgsStep, ha, hd, etcFinish, etcHandler]

/-- Free and zeroing behaviour of the name step. -/
theorem etcNameStep_frees (parseJson : String → Option Json) (tc : ToolCallMem)
    (tid : Option String) (cid : Nat) :
    (etcNameStep parseJson tc tid cid).freeId = cid ∧
    (etcNameStep parseJson tc tid cid).freeName
      = (if tc.tool_name.isSome then 1 else 0) ∧
    (etcNameStep parseJson tc tid cid).freeArgs
      = (if tc.arguments_json.isSome then 1 else 0) ∧
    (etcNameStep parseJson tc tid cid).fieldId = none ∧
    (etcNameStep parseJson tc tid cid).fieldName = none ∧
    (etcNameStep parseJson tc tid cid).fieldArgs = none := by
  cases hn : tc.tool_name with
  | none => simpa [etcNameStep, hn] using etcArgsStep_frees parseJson tc tid none cid 0
  | some bs =>
    cases hd : utf8Decode bs with
    | none =>
      cases ha : tc.arguments_json <;>
        simp [etcNameStep, hn, hd, ha, etcHandler]
    | some s =>
      simpa [etcNameStep, hn, hd] using etcArgsStep_frees parseJson tc tid (some s) cid 1

/-- Free and zeroing behaviour of `extract_tool_call`: every initially
non-null pointer field is passed to the free function exactly once and
zeroed, on every exit path including the exception handler. -/
theorem etc_frees (parseJson : String → Option Json) (tc : ToolCallMem) :
    (extract_tool_call parseJson tc).freeId = (if tc.id.isSome then 1 else 0) ∧
    (extract_tool_call parseJson tc).freeName
      = (if tc.tool_name.isSome then 1 else 0) ∧
    (extract_tool_call parseJson tc).freeArgs
      = (if tc.arguments_json.isSome then 1 else 0) ∧
    (extract_tool_call parseJson tc).fieldId = none ∧
    (extract_tool_call parseJson tc).fieldName = none ∧
    (extract_tool_call parseJson tc).fieldArgs = none := by
  cases hi : tc.id with
  | none => simpa [extract_tool_call, hi] using etcNameStep_frees parseJson tc none 0
  | some bs =>
    cases hd : utf8Decode bs with
    | none =>
      cases hn : tc.tool_name <;> cases ha : tc.arguments_json <;>
        simp [extract_tool_call, hi, hd, hn, ha, etcHandler]
    | some s =>
      simpa [extract_tool_call, hi, hd] using etcNameStep_frees parseJson tc (some s) 1

/-! ## Claim C1 -/

/-- **C1, counterexample.**  The claim states that `get_message_content`
passes a non-null message pointer to the free function exactly once on
every exit path, including exception paths, and zeroes the struct field
before returning.  At the concrete input `[0xFF]` — a non-null pointer
to bytes that are not valid UTF-8 — the decode raises before the free,
the outer handler returns, the pointer is never freed (freed zero
times, not once) and the field is not zeroed. -/
theorem C1_counterexample :
    (get_message_content (fun _ => none) (some [0xFF])).freeCount = 0 ∧
    (get_message_content (fun _ => none) (some [0xFF])).messageField = some [0xFF] :=
  ⟨rfl, rfl⟩

/-- **C1, amended.**  Every non-null pointer is freed at most once, so
no double free or use-after-free can occur.  In `extract_tool_call`
each of the id, tool-name and arguments pointers is freed exactly once
on every exit path (exception paths included) and its field is zeroed
before returning.  In `get_message_content` the message pointer is
freed exactly once and its field zeroed whenever the bytes decode as
UTF-8; when decoding raises, the pointer is freed zero times and the
field keeps its value (a leak, never a double free). -/
theorem C1_amended (parseJson : String → Option Json) (bytes : Bytes)
    (tc : ToolCallMem) :
    (get_message_content parseJson (some bytes)).freeCount
      = (if (utf8Decode bytes).isSome then 1 else 0) ∧
    (get_message_content parseJson (some bytes)).messageField
      = (if (utf8Decode bytes).isSome then none else some bytes) ∧
    (extract_tool_call parseJson tc).freeId = (if tc.id.isSome then 1 else 0) ∧
    (extract_tool_call parseJson tc).freeName
      = (if tc.tool_name.isSome then 1 else 0) ∧
    (extract_tool_call parseJson tc).freeArgs
      = (if tc.arguments_json.isSome then 1 else 0) ∧
    (extract_tool_call parseJson tc).fieldId = none ∧
    (extract_tool_call parseJson tc).fieldName = none ∧
    (extract_tool_call parseJson tc).fieldArgs = none := by
  have he := etc_frees parseJson tc
  cases hd : utf8Decode bytes with
  | none =>
    exact ⟨by simp [get_message_content, hd], by simp [get_message_content, hd],
      he.1, he.2.1, he.2.2.1, he.2.2.2.1, he.2.2.2.2.1, he.2.2.2.2.2⟩
  | some s =>
    exact ⟨by simp [get_message_content, hd], by simp [get_message_content, hd],
      he.1, he.2.1, he.2.2.1, he.2.2.2.1, he.2.2.2.2.1, he.2.2.2.2.2⟩

/-! ## Claim C10 -/

/-- **C10.**  `extract_tool_call` never raises (its embedding is total:
every Python exception is caught and turned into a return value) and
always returns a triple.  When the `arguments_json` field is null, or
its contents fail to parse as JSON, the third component is the empty
dictionary; and when any extraction step fails, the returned triple is
`(None, None, {})` and every initially non-null pointer has been
released exactly once. -/
theorem C10_extract_tool_call (parseJson : String → Option Json)
    (tc : ToolCallMem) :
    (tc.arguments_json = none → (extract_tool_call parseJson tc).args = .obj []) ∧
    (∀ bs s, tc.arguments_json = some bs → utf8Decode bs = some s →
      parseJson s = none → (extract_tool_call parseJson tc).args = .obj []) ∧
    (etcFails tc = true →
      (extract_tool_call parseJson tc).tool_id = none ∧
      (extract_tool_call parseJson tc).tool_name = none ∧
      (extract_tool_call parseJson tc).args = .obj [] ∧
      (extract_tool_call parseJson tc).freeId = (if tc.id.isSome then 1 else 0) ∧
      (extract_tool_call parseJson tc).freeName
        = (if tc.tool_name.isSome then 1 else 0) ∧
      (extract_tool_call parseJson tc).freeArgs
        = (if tc.arguments_json.isSome then 1 else 0)) := by
  have he := etc_frees parseJson tc
  refine ⟨?_, ?_, ?_⟩
  · intro ha
    cases hi : tc.id with
    | none =>
      cases hn : tc.tool_name with
      | none => simp [extract_tool_call, hi, etcNameStep, hn, etcArgsStep, ha, etcFinish]
      | some bsn =>
        cases hdn : utf8Decode bsn <;>
          simp [extract_tool_call, hi, etcNameStep, hn, hdn, etcArgsStep, ha,
            etcFinish, etcHandler]
    | some bsi =>
      cases hdi : utf8Decode bsi with
      | none => simp [extract_tool_call, hi, hdi, etcHandler]
      | some si =>
        cases hn : tc.tool_name with
        | none => simp [extract_tool_call, hi, hdi, etcNameStep, hn, etcArgsStep, ha, etcFinish]
        | some bsn =>
          cases hdn : utf8Decode bsn <;>
            simp [extract_tool_call, hi, hdi, etcNameStep, hn, hdn, etcArgsStep, ha,
              etcFinish, etcHandler]
  · intro bs s ha hd hp
    cases hi : tc.id with
    | none =>
      cases hn : tc.tool_name with
      | none =>
        by_cases hs : s = "" <;>
          simp [extract_tool_call, hi, etcNameStep, hn, etcArgsStep, ha, hd,
            etcFinish, hs, hp]
      | some bsn =>
        cases hdn : utf8Decode bsn with
        | none => simp [extract_tool_call, hi, etcNameStep, hn, hdn, etcHandler]
        | some sn =>
          by_cases hs : s = "" <;>
            simp [extract_tool_call, hi, etcNameStep, hn, hdn, etcArgsStep, ha, hd,
              etcFinish, hs, hp]
    | some bsi =>
      cases hdi : utf8Decode bsi with
      | none => simp [extract_tool_call, hi, hdi, etcHandler]
      | some si =>
        cases hn : tc.tool_name with
        | none =>
          by_cases hs : s = "" <;>
            simp [extract_tool_call, hi, hdi, etcNameStep, hn, etcArgsStep, ha, hd,
              etcFinish, hs, hp]
        | some bsn =>
          cases hdn : utf8Decode bsn with
          | none => simp [extract_tool_call, hi, hdi, etcNameStep, hn, hdn, etcHandler]
          | some sn =>
            by_cases hs : s = "" <;>
              simp [extract_tool_call, hi, hdi, etcNameStep, hn, hdn, etcArgsStep, ha, hd,
                etcFinish, hs, hp]
  · intro hf
    refine ⟨?_, ?_, ?_, he.1, he.2.1, he.2.2.1⟩ <;>
    · cases hi : tc.id with
      | none =>
        cases hn : tc.tool_name with
        | none =>
          cases ha : tc.arguments_json with
          | none => simp [etcFails, decodeFails, hi, hn, ha] at hf
          | some bsa =>
            cases hda : utf8Decode bsa with
            | none => simp [extract_tool_call, hi, etcNameStep, hn, etcArgsStep, ha, hda, etcHandler]
            | some sa => simp [etcFails, decodeFails, hi, hn, ha, hda] at hf
        | some bsn =>
          cases hdn : utf8Decode bsn with
          | none => simp [extract_tool_call, hi, etcNameStep, hn, hdn, etcHandler]
          | some sn =>
            cases ha : tc.arguments_json with
            | none => simp [etcFails, decodeFails, hi, hn, hdn, ha] at hf
            | some bsa =>
              cases hda : utf8Decode bsa with
              | none => simp [extract_tool_call, hi, etcNameStep, hn, hdn, etcArgsStep, ha, hda, etcHandler]
              | some sa => simp [etcFails, decodeFails, hi, hn, hdn, ha, hda] at hf
      | some bsi =>
        cases hdi : utf8Decode bsi with
        | none => simp [extract_tool_call, hi, hdi, etcHandler]
        | some si =>
          cases hn : tc.tool_name with
          | none =>
            cases ha : tc.arguments_json with
            | none => simp [etcFails, decodeFails, hi, hdi, hn, ha] at hf
            | some bsa =>
              cases hda : utf8Decode bsa with
              | none => simp [extract_tool_call, hi, hdi, etcNameStep, hn, etcArgsStep, ha, hda, etcHandler]
              | some sa => simp [etcFails, decodeFails, hi, hdi, hn, ha, hda] at hf
          | some bsn =>
            cases hdn : utf8Decode bsn with
            | none => simp [extract_tool_call, hi, hdi, etcNameStep, hn, hdn, etcHandler]
            | some sn =>
              cases ha : tc.arguments_json with
              | none => simp [etcFails, decodeFails, hi, hdi, hn, hdn, ha] at hf
              | some bsa =>
                cases hda : utf8Decode bsa with
                | none => simp [extract_tool_call, hi, hdi, etcNameStep, hn, hdn, etcArgsStep, ha, hda, etcHandler]
                | some sa => simp [etcFails, decodeFails, hi, hdi, hn, hdn, ha, hda] at hf

/-- **C10, witness.**  The theorem applied at a concrete struct whose
id bytes are not valid UTF-8 (so an extraction step fails) with a null
arguments field. -/
theorem C10_witness :
    (extract_tool_call (fun _ => none)
        { id := some [0x80], tool_name := some (asciiBytes "w"), arguments_json := none }).args
      = .obj [] ∧
    (extract_tool_call (fun _ => none)
        { id := some [0x80], tool_name := some (asciiBytes "w"), arguments_json := none }).tool_id
      = none :=
  ⟨(C10_extract_tool_call (fun _ => none)
      { id := some [0x80], tool_name := some (asciiBytes "w"), arguments_json := none }).1 rfl,
   ((C10_extract_tool_call (fun _ => none)
      { id := some [0x80], tool_name := some (asciiBytes "w"), arguments_json := none }).2.2
      (by rfl)).1⟩

/-! ## Claim C9 -/

/-- **C9.**  `calculator_callback` always returns a dictionary and never
raises (the embedding is total; the whole body is wrapped in
`try/except`).  A failed conversion of `a` or `b` yields
`{"error": str(e)}`; with convertible `a` and `b`, operation
`"divide"` with `b = 0` yields `{"error": "Division by zero"}`, the
four arithmetic operations yield `{"result": r}` with the exact
arithmetic result (numbers are modelled exactly, as rationals), and any
other operation yields an `{"error": ...}` dictionary. -/
theorem C9_calculator_callback (floatE : PyVal → Except String ℚ)
    (params : List (String × PyVal)) :
    (∀ e, floatE (pyGet params "a" (.num 0)) = .error e →
      calculator_callback floatE params = .error e) ∧
    (∀ a e, floatE (pyGet params "a" (.num 0)) = .ok a →
      floatE (pyGet params "b" (.num 0)) = .error e →
      calculator_callback floatE params = .error e) ∧
    (∀ a b, floatE (pyGet params "a" (.num 0)) = .ok a →
      floatE (pyGet params "b" (.num 0)) = .ok b →
      (pyGet params "operation" (.str "") = .str "add" →
        calculator_callback floatE params = .result (a + b)) ∧
      (pyGet params "operation" (.str "") = .str "subtract" →
        calculator_callback floatE params = .result (a - b)) ∧
      (pyGet params "operation" (.str "") = .str "multiply" →
        calculator_callback floatE params = .result (a * b)) ∧
      (pyGet params "operation" (.str "") = .str "divide" → b = 0 →
        calculator_callback floatE params = .error "Division by zero") ∧
      (pyGet params "operation" (.str "") = .str "divide" → b ≠ 0 →
        calculator_callback floatE params = .result (a / b)) ∧
      ((∀ op ∈ ["add", "subtract", "multiply", "divide"],
          pyGet params "operation" (.str "") ≠ .str op) →
        ∃ m, calculator_callback floatE params = .error m)) := by
  refine ⟨?_, ?_, ?_⟩
  · intro e he; simp [calculator_callback, he]
  · intro a e ha hb; simp [calculator_callback, ha, hb]
  · intro a b ha hb
    refine ⟨?_, ?_, ?_, ?_, ?_, ?_⟩
    · intro hop; simp [calculator_callback, ha, hb, hop, pvIsStr]
    · intro hop; simp [calculator_callback, ha, hb, hop, pvIsStr]
    · intro hop; simp [calculator_callback, ha, hb, hop, pvIsStr]
    · intro hop hz; simp [calculator_callback, ha, hb, hop, pvIsStr, hz]
    · intro hop hz; simp [calculator_callback, ha, hb, hop, pvIsStr, hz]
    · intro hop
      have h1 := hop "add" (by simp)
      have h2 := hop "subtract" (by simp)
      have h3 := hop "multiply" (by simp)
      have h4 := hop "divide" (by simp)
      refine ⟨"Unknown operation: " ++ pvStr (pyGet params "operation" (.str "")), ?_⟩
      have hv1 : pvIsStr (pyGet params "operation" (.str "")) "add" = false := by
        cases hv : pyGet params "operation" (.str "") with
        | str t => exact decide_eq_false (fun h => h1 (by rw [hv, h]))
        | num q => rfl
        | other => rfl
      have hv2 : pvIsStr (pyGet params "operation" (.str "")) "subtract" = false := by
        cases hv : pyGet params "operation" (.str "") with
        | str t => exact decide_eq_false (fun h => h2 (by rw [hv, h]))
        | num q => rfl
        | other => rfl
      have hv3 : pvIsStr (pyGet params "operation" (.str "")) "multiply" = false := by
        cases hv : pyGet params "operation" (.str "") with
        | str t => exact decide_eq_false (fun h => h3 (by rw [hv, h]))
        | num q => rfl
        | other => rfl
      have hv4 : pvIsStr (pyGet params "operation" (.str "")) "divide" = false := by
        cases hv : pyGet params "operation" (.str "") with
        | str t => exact decide_eq_false (fun h => h4 (by rw [hv, h]))
        | num q => rfl
        | other => rfl
      simp [calculator_callback, ha, hb, hv1, hv2, hv3, hv4]

/-- **C9, witness.**  The theorem applied at the concrete params
`{"operation": "divide", "a": 10, "b": 4}` with the conversion
succeeding on numbers: the result is the exact quotient `5/2`. -/
theorem C9_witness :
    calculator_callback
      (fun v => match v with | .num q => .ok q | _ => .error "could not convert")
      [("operation", .str "divide"), ("a", .num 10), ("b", .num 4)]
      = .result (5 / 2 : ℚ) := by
  have h := ((C9_calculator_callback
      (fun v => match v with | .num q => .ok q | _ => .error "could not convert")
      [("operation", .str "divide"), ("a", .num 10), ("b", .num 4)]).2.2
      10 4 rfl rfl).2.2.2.2.1 rfl (by norm_num)
  rw [h]; norm_num

/-! ## Claim C2 -/

/-- Concrete foreign-library behaviour for one driving run: the first
`reply_step` requests the calculator tool (id `call1`, arguments
`{"expression": "1+1"}`), `reply_tool_result` returns a fresh non-null
state, and the second `reply_step` reports completion. -/
def stepC2 : Nat → StepResultFFI := fun k =>
  if k = 0 then
    { status := .toolCallNeeded, message := none
      tool_call :=
        { id := some (asciiBytes "call1")
          tool_name := some (asciiBytes "calculator")
          arguments_json := some (asciiBytes "\x7b\"expression\":\"1+1\"\x7d") } }
  else
    { status := .complete, message := none
      tool_call := { id := none, tool_name := none, arguments_json := none } }

/-- Concrete `json.loads` behaviour for the inputs this run parses. -/
def parseC2 : String → Option Json := fun s =>
  if s = "\x7b\"expression\":\"1+1\"\x7d" then
    some (.obj [("expression", .str "1+1")])
  else none

/-- Concrete environment of the run: `eval("1+1")` yields `2`, every
`reply_tool_result` call returns a non-null state. -/
def envC2 : FFIEnv :=
  { stepRes := stepC2, toolResultOk := fun _ => true
    evalE := fun s => if s = "1+1" then .ok "2" else .error "NameError"
    parseJson := parseC2, isRetry := true }

/-- **C2** (code bug, evaluated at the failing input).  In
`goose_agent.send_message_non_streaming`, after `reply_tool_result`
returns the non-null new state (handle 2), the next `reply_step` call
is still made on the superseded handle 1 (`stepHandles = [1, 1]`), the
superseded handle keeps being used and is the only handle ever freed,
and the returned new state (handle 2) is never freed — exactly the
behaviour `goose_agent_fixed.py` repairs by freeing the old state and
re-binding `reply_state` to the new one. -/
theorem C2_stale_handle_trace :
    (send_message_non_streaming envC2 3).stepHandles = [1, 1] ∧
    (send_message_non_streaming envC2 3).toolResultHandles = [1] ∧
    (send_message_non_streaming envC2 3).allocated = [1, 2] ∧
    (send_message_non_streaming envC2 3).freed = [1] ∧
    (send_message_non_streaming envC2 3).submitted
      = [("call1", "The result is: 2")] ∧
    (send_message_non_streaming envC2 3).exit = .returned "Empty response" :=
  ⟨rfl, rfl, rfl, rfl, rfl, rfl⟩

/-! ## Claim C3 -/

/-- Concrete foreign-library behaviour in which every `reply_step`
requests the weather tool with arguments JSON `5` (a non-dict). -/
def envC3 : FFIEnv :=
  { stepRes := fun _ =>
      { status := .toolCallNeeded, message := none
        tool_call :=
          { id := some (asciiBytes "w1")
            tool_name := some (asciiBytes "weather")
            arguments_json := some (asciiBytes "5") } }
    toolResultOk := fun _ => true
    evalE := fun _ => .error "NameError"
    parseJson := fun s => if s = "5" then some (.num 5) else none
    isRetry := true }

/-- **C3, counterexample.**  The claim states that whenever the
dispatched tool's handler raises, the turn does not terminate in an
error and an error-carrying tool result is submitted back.  In
`goose_agent.send_message_non_streaming`, dispatching the weather tool
on non-dict arguments makes `args.get` raise inside `execute_tool`
outside any handler; the round's `except` clause then breaks out of the
loop: the turn returns an error, nothing is submitted, no further
provider round happens (only one `reply_step` was ever made). -/
theorem C3_counterexample :
    (send_message_non_streaming envC3 3).exit
      = .returned ("Error processing tool call: " ++ attrErrMsg) ∧
    (send_message_non_streaming envC3 3).submitted = [] ∧
    (send_message_non_streaming envC3 3).stepHandles = [1] :=
  ⟨rfl, rfl, rfl⟩

/-- The loop state after a tool round that submits result `r` for tool
id `tid` and continues: both call counters advance, both calls were
made on the current handle, the submitted pair is recorded, and the
fresh state handle is allocated. -/
def contState (st : LoopState) (tid r : String) : LoopState :=
  { st with
    k := st.k + 1
    stepHandles := st.stepHandles ++ [st.h]
    t := st.t + 1
    toolResultHandles := st.toolResultHandles ++ [st.h]
    submitted := st.submitted ++ [(tid, r)]
    allocated := st.allocated ++ [st.nextH]
    nextH := st.nextH + 1 }

/-- **C3, amended.**  In `goose_agent.send_message_non_streaming`, a
round whose requested tool name has no registered handler, or whose
calculator dispatch fails inside the guarded block, does not terminate
the turn: the error message is submitted back as the tool result and
the loop continues to the next provider round (provided
`reply_tool_result` returns a non-null state).  An exception escaping
`execute_tool` — the weather handler on non-dict arguments — instead
terminates the turn (the counterexample). -/
theorem C3_amended (env : FFIEnv) (fuel : Nat) (st : LoopState)
    (tid tname : String)
    (hst : (env.stepRes st.k).status = .toolCallNeeded)
    (hid : (extract_tool_call env.parseJson (env.stepRes st.k).tool_call).tool_id
      = some tid)
    (htid : tid ≠ "")
    (hname : (extract_tool_call env.parseJson (env.stepRes st.k).tool_call).tool_name
      = some tname)
    (htname : tname ≠ "")
    (hok : env.toolResultOk st.t = true) :
    (tname ≠ "calculator" → tname ≠ "weather" →
      agentLoopGo env (fuel + 1) st
        = agentLoopGo env fuel (contState st tid ("Unknown tool: " ++ tname))) ∧
    (∀ fs e, tname = "calculator" →
      (extract_tool_call env.parseJson (env.stepRes st.k).tool_call).args = .obj fs →
      env.evalE (pyStrJ ((jLookup fs "expression").getD (.str "0"))) = .error e →
      agentLoopGo env (fuel + 1) st
        = agentLoopGo env fuel (contState st tid ("Error calculating: " ++ e))) := by
  constructor
  · intro hc hw
    simp only [agentLoopGo, hst, hid, hname, pyFalsy, htid, decide_eq_true_eq,
      if_neg htid, Bool.or_self, Bool.false_eq_true, if_false]
    rw [if_neg (by simp [htid, htname])]
    rw [show execute_tool env.evalE
        ((some tname).getD "") (extract_tool_call env.parseJson (env.stepRes st.k).tool_call).args
      = .ok ("Unknown tool: " ++ tname) by simp [execute_tool, hc, hw]]
    simp only [hok, if_true, Option.getD_some]
    rfl
  · intro fs e hc hargs heval
    subst hc
    simp only [agentLoopGo, hst, hid, hname]
    rw [if_neg (by simp [pyFalsy, htid])]
    rw [show execute_tool env.evalE ((some "calculator").getD "")
        (extract_tool_call env.parseJson (env.stepRes st.k).tool_call).args
      = .ok ("Error calculating: " ++ e) by
        simp [execute_tool, hargs, heval]]
    simp only [hok, if_true, Option.getD_some]
    rfl

/-- Concrete environment for the amended-claim witness: the requested
tool `sometool` has no registered handler. -/
def envC3W : FFIEnv :=
  { stepRes := fun _ =>
      { status := .toolCallNeeded, message := none
        tool_call :=
          { id := some (asciiBytes "u1")
            tool_name := some (asciiBytes "sometool")
            arguments_json := none } }
    toolResultOk := fun _ => true
    evalE := fun _ => .error "NameError"
    parseJson := fun _ => none
    isRetry := true }

/-- The initial loop state right after `reply_begin`. -/
def st0W : LoopState :=
  { h := 1, nextH := 2, k := 0, t := 0, stepHandles := []
    toolResultHandles := [], allocated := [1], submitted := [] }

/-- **C3, witness.**  The amended theorem applied at a concrete round
requesting the unregistered tool `sometool`: the loop submits the
`Unknown tool` message and continues. -/
theorem C3_witness :
    agentLoopGo envC3W 1 st0W
      = agentLoopGo envC3W 0 (contState st0W "u1" "Unknown tool: sometool") :=
  (C3_amended envC3W 0 st0W "u1" "sometool" rfl rfl (by decide) rfl (by decide) rfl).1
    (by decide) (by decide)

/-! ## Claim C4 -/

/-- The newline-join of a list of strings, as the claim describes it. -/
def newlineJoin : List String → String
  | [] => ""
  | [s] => s
  | s :: rest => s ++ "\n" ++ newlineJoin rest

/-- `joinParts` on all-string parts is the newline-join. -/
theorem joinParts_map : ∀ ts : List String,
    joinParts (ts.map Json.str) = .ok (newlineJoin ts)
  | [] => rfl
  | [_] => rfl
  | s :: s2 :: rest => by
    have ih := joinParts_map (s2 :: rest)
    simp only [List.map_cons] at ih ⊢
    rw [show joinParts (Json.str s :: Json.str s2 :: rest.map Json.str)
      = (joinParts (Json.str s2 :: rest.map Json.str)).map (fun r => s ++ "\n" ++ r)
      from rfl, ih]
    rfl

/-- `nyResponseText` on all-string parts is the newline-join. -/
theorem nyResponseText_map (ts : List String) :
    nyResponseText (ts.map Json.str) = .ok (newlineJoin ts) := by
  cases ts with
  | nil => rfl
  | cons s rest => simpa [nyResponseText] using joinParts_map (s :: rest)

/-- The `(tool_name, tool_id)` pairs of a request list, in order; `none`
when some request fails to extract. -/
def reqPairs : List Json → Option (List (Json × Json))
  | [] => some []
  | req :: rest =>
    match reqIdName req with
    | .error _ => none
    | .ok (tid, tname, _) => (reqPairs rest).map (fun l => (tname, tid) :: l)

/-- The id of the last request with the given tool name, if any. -/
def lastIdFor : List (Json × Json) → Json → Option Json
  | [], _ => none
  | (n, i) :: rest, q =>
    match lastIdFor rest q with
    | some r => some r
    | none => if n = q then some i else none

/-- The recording loop is the fold of the dictionary update over the
extracted `(name, id)` pairs when every request extracts. -/
theorem nyRecordGo_eq : ∀ (reqs : List Json) (m : List (Json × Json))
    (pairs : List (Json × Json)), reqPairs reqs = some pairs →
    nyRecordGo m reqs = (pairs.foldl (fun acc p => jAssocUpd acc p.1 p.2) m, true)
  | [], m, pairs => by
    intro h
    simp only [reqPairs, Option.some.injEq] at h
    subst h
    rfl
  | req :: rest, m, pairs => by
    intro h
    simp only [reqPairs] at h
    cases hr : reqIdName req with
    | error e => rw [hr] at h; exact absurd h (by simp)
    | ok v =>
      obtain ⟨tid, tname, targs⟩ := v
      rw [hr] at h
      cases hp : reqPairs rest with
      | none => rw [hp] at h; exact absurd h (by simp)
      | some rest' =>
        rw [hp] at h
        simp only [Option.map_some', Option.some.injEq] at h
        subst h
        simp only [nyRecordGo, hr, List.foldl_cons]
        exact nyRecordGo_eq rest (jAssocUpd m tname tid) rest' hp

/-- Lookup after a single dictionary update. -/
theorem jAssocFind_upd (m : List (Json × Json)) (k v q : Json) :
    jAssocFind (jAssocUpd m k v) q = if q = k then some v else jAssocFind m q := by
  induction m with
  | nil =>
    by_cases h : q = k
    · simp [jAssocUpd, jAssocFind, h]
    · have h' : ¬ k = q := fun hh => h hh.symm
      simp [jAssocUpd, jAssocFind, h, h']
  | cons p rest ih =>
    obtain ⟨k', v'⟩ := p
    by_cases hk : k' = k
    · subst hk
      by_cases hq : q = k'
      · simp [jAssocUpd, jAssocFind, hq]
      · have hq' : ¬ k' = q := fun hh => hq hh.symm
        simp [jAssocUpd, jAssocFind, hq, hq']
    · by_cases hq : k' = q
      · subst hq
        simp [jAssocUpd, jAssocFind, hk]
      · simp [jAssocUpd, jAssocFind, hk, hq, ih]

/-- Lookup after folding the update over a pair list: the last binding
for the key wins, otherwise the original dictionary answers. -/
theorem jAssocFind_foldl : ∀ (pairs : List (Json × Json))
    (m : List (Json × Json)) (q : Json),
    jAssocFind (pairs.foldl (fun acc p => jAssocUpd acc p.1 p.2) m) q
      = (match lastIdFor pairs q with
         | some r => some r
         | none => jAssocFind m q)
  | [], m, q => rfl
  | (n, i) :: rest, m, q => by
    simp only [List.foldl_cons, lastIdFor]
    rw [jAssocFind_foldl rest (jAssocUpd m n i) q]
    cases hl : lastIdFor rest q with
    | some r => rfl
    | none =>
      simp only [jAssocFind_upd]
      by_cases h : q = n
      · simp [h]
      · have h' : ¬ n = q := fun hh => h hh.symm
        simp [h, h']

/-- Concrete response for the counterexample: a terminal message whose
content holds two tool requests with the same tool name `t` and
distinct ids `a` and `b`. -/
def nyRespStrC4 : String :=
  "\x7b\"role\":\"assistant\",\"content\":[\x7b\"type\":\"toolRequest\",\"id\":\"a\",\"toolCall\":\x7b\"value\":\x7b\"name\":\"t\",\"arguments\":\x7b\x7d\x7d\x7d\x7d,\x7b\"type\":\"toolRequest\",\"id\":\"b\",\"toolCall\":\x7b\"value\":\x7b\"name\":\"t\",\"arguments\":\x7b\x7d\x7d\x7d\x7d]\x7d"

/-- The parse of `nyRespStrC4`. -/
def nyRespObjC4 : Json :=
  .obj [("role", .str "assistant"),
        ("content", .arr
          [.obj [("type", .str "toolRequest"), ("id", .str "a"),
                 ("toolCall", .obj [("value",
                    .obj [("name", .str "t"), ("arguments", .obj [])])])],
           .obj [("type", .str "toolRequest"), ("id", .str "b"),
                 ("toolCall", .obj [("value",
                    .obj [("name", .str "t"), ("arguments", .obj [])])])]])]

/-- Concrete environment for the counterexample run. -/
def envC4 : NyEnv :=
  { resp := fun k => if k = 0 then some (asciiBytes nyRespStrC4) else none
    parseJson := fun s => if s = nyRespStrC4 then some nyRespObjC4 else none
    evalE := fun _ => .error "NameError" }

set_option maxRecDepth 40000 in
/-- **C4, counterexample.**  The claim states that with auto-execution
disabled the function records every unresolved request's id (keyed by
tool name).  On a response carrying two tool requests with the same
tool name `t` and ids `a` and `b`, the dictionary keyed by tool name
retains only the last id: `a` is recorded nowhere, so not every
request's id is recorded. -/
theorem C4_counterexample :
    (send_message_non_yielding envC4 false []).lastToolRequest
      = [(Json.str "t", Json.str "b")] ∧
    jAssocFind (send_message_non_yielding envC4 false []).lastToolRequest
      (Json.str "t") = some (Json.str "b") ∧
    (send_message_non_yielding envC4 false []).ret = .ok "" ∧
    (send_message_non_yielding envC4 false []).boundaryCalls = 1 :=
  ⟨rfl, rfl, rfl, rfl⟩

/-- **C4, amended.**  With auto-execution disabled, exactly one boundary
call is made on every path.  When the parsed terminal message's content
holds no `toolRequest` item, the function returns the newline-join of
its text items; when it holds `toolRequest` items, it returns the text
and records, for each tool name among the requests, the id of the *last*
request with that name (earlier ids under the same name are
overwritten, other dictionary entries are preserved), resolving none of
them itself. -/
theorem C4_amended (env : NyEnv) (initMap : List (Json × Json)) :
    (send_message_non_yielding env false initMap).boundaryCalls = 1 ∧
    (∀ bytes s fs items sc ts,
      env.resp 0 = some bytes → utf8Decode bytes = some s →
      env.parseJson s = some (.obj fs) →
      jLookup fs "content" = some (.arr items) →
      nyScanContent items = .ok sc → sc.texts = ts.map Json.str →
      (sc.requests = [] →
        (send_message_non_yielding env false initMap).ret = .ok (newlineJoin ts) ∧
        (send_message_non_yielding env false initMap).lastToolRequest = initMap) ∧
      (∀ pairs, reqPairs sc.requests = some pairs →
        (send_message_non_yielding env false initMap).ret = .ok (newlineJoin ts) ∧
        ∀ q, jAssocFind (send_message_non_yielding env false initMap).lastToolRequest q
          = (match lastIdFor pairs q with
             | some r => some r
             | none => jAssocFind initMap q))) := by
  constructor
  · cases h0 : env.resp 0 with
    | none => simp [send_message_non_yielding, h0]
    | some bytes =>
      cases hd : utf8Decode bytes with
      | none => simp [send_message_non_yielding, h0, hd]
      | some s =>
        cases hp : env.parseJson s with
        | none => simp [send_message_non_yielding, h0, hd, hp]
        | some j =>
          cases j with
          | obj fs =>
            simp only [send_message_non_yielding, h0, hd, hp]
            cases hc : jLookup fs "content" with
            | none =>
              repeat' split
              all_goals first | rfl | simp_all
            | some cv =>
              repeat' split
              all_goals first | rfl | simp_all
          | null => simp [send_message_non_yielding, h0, hd, hp]
          | bool b => simp [send_message_non_yielding, h0, hd, hp]
          | num n => simp [send_message_non_yielding, h0, hd, hp]
          | str s2 => simp [send_message_non_yielding, h0, hd, hp]
          | arr xs => simp [send_message_non_yielding, h0, hd, hp]
  · intro bytes s fs items sc ts h0 hd hp hc hscan hts
    have hrt : nyResponseText sc.texts = .ok (newlineJoin ts) := by
      rw [hts]; exact nyResponseText_map ts
    constructor
    · intro hreq
      simp [send_message_non_yielding, h0, hd, hp, hc, hscan, hrt, hreq]
    · intro pairs hpairs
      by_cases hre : sc.requests = []
      · have : pairs = [] := by
          rw [hre] at hpairs
          simpa [reqPairs] using hpairs.symm
        subst this
        constructor
        · simp [send_message_non_yielding, h0, hd, hp, hc, hscan, hrt, hre]
        · intro q
          simp [send_message_non_yielding, h0, hd, hp, hc, hscan, hrt, hre, lastIdFor]
      · have hrec := nyRecordGo_eq sc.requests initMap pairs hpairs
        constructor
        · simp [send_message_non_yielding, h0, hd, hp, hc, hscan, hrt, hre, hrec]
        · intro q
          have hmap : (send_message_non_yielding env false initMap).lastToolRequest
              = pairs.foldl (fun acc p => jAssocUpd acc p.1 p.2) initMap := by
            simp [send_message_non_yielding, h0, hd, hp, hc, hscan, hrt, hre, hrec]
          rw [hmap, jAssocFind_foldl]

/-- Concrete response for the amended-claim witness: one text item and
one tool request. -/
def nyRespStrC4W : String :=
  "\x7b\"role\":\"assistant\",\"content\":[\x7b\"type\":\"text\",\"text\":\"hi\"\x7d,\x7b\"type\":\"toolRequest\",\"id\":\"a\",\"toolCall\":\x7b\"value\":\x7b\"name\":\"t\",\"arguments\":\x7b\x7d\x7d\x7d\x7d]\x7d"

/-- The parse of `nyRespStrC4W`. -/
def nyRespObjC4W : Json :=
  .obj [("role", .str "assistant"),
        ("content", .arr
          [.obj [("type", .str "text"), ("text", .str "hi")],
           .obj [("type", .str "toolRequest"), ("id", .str "a"),
                 ("toolCall", .obj [("value",
                    .obj [("name", .str "t"), ("arguments", .obj [])])])]])]

/-- Concrete environment for the witness run. -/
def envC4W : NyEnv :=
  { resp := fun k => if k = 0 then some (asciiBytes nyRespStrC4W) else none
    parseJson := fun s => if s = nyRespStrC4W then some nyRespObjC4W else none
    evalE := fun _ => .error "NameError" }

set_option maxRecDepth 40000 in
/-- **C4, witness.**  The amended theorem applied at the concrete run:
the text is returned, the single request's id is recorded under its
tool name, and one boundary call was made. -/
theorem C4_witness :
    (send_message_non_yielding envC4W false []).ret = .ok "hi" ∧
    jAssocFind (send_message_non_yielding envC4W false []).lastToolRequest
      (Json.str "t") = some (Json.str "a") ∧
    (send_message_non_yielding envC4W false []).boundaryCalls = 1 := by
  have h := ((C4_amended envC4W []).2 (asciiBytes nyRespStrC4W) nyRespStrC4W
    _ _ _ ["hi"] rfl rfl rfl rfl rfl rfl).2
    [(Json.str "t", Json.str "a")] rfl
  exact ⟨h.1, by simpa [lastIdFor] using h.2 (Json.str "t"), (C4_amended envC4W []).1⟩

/-! ## Claim C5 -/

/-- **C5.**  (Spec-modelled: the state machine lives in the foreign
library.)  For every `ReplyState` freshly in phase `MessageYielded`
(message not yet delivered) whose history holds an assistant message,
the first `get_current_message` call returns the most recent assistant
message, and a second call made before the phase changes again returns
none — the same message is never delivered twice. -/
theorem C5_get_current_message (s : RSM.ReplyState) (m : RSM.Message)
    (hp : s.phase = .messageYielded)
    (hd : s.currentMessageDelivered = false)
    (hm : RSM.latestAssistant s.history = some m) :
    (RSM.get_current_message s).1 = some m ∧
    (RSM.get_current_message (RSM.get_current_message s).2).1 = none := by
  simp [RSM.get_current_message, hp, hd, hm]

/-- A concrete yielded state: the provider has answered `100`. -/
def sC5 : RSM.ReplyState :=
  { history := [{ role := .user, content := [.text "What is 42+58?"] },
                { role := .assistant, content := [.text "100"] }]
    pending := [], phase := .messageYielded, lastError := none
    currentMessageDelivered := false, execCount := 0 }

/-- **C5, witness.**  The theorem applied at the concrete yielded
state. -/
theorem C5_witness :
    (RSM.get_current_message sC5).1
      = some { role := .assistant, content := [.text "100"] } ∧
    (RSM.get_current_message (RSM.get_current_message sC5).2).1 = none :=
  C5_get_current_message sC5 { role := .assistant, content := [.text "100"] }
    rfl rfl rfl

/-! ## Claim C6 -/

/-- **C6.**  (Spec-modelled.)  For every `ReplyState` and every id not
in its current pending set, `approve_tool` and `deny_tool` fail with a
protocol error — `succeeded = false` with a descriptive message — and
return the state unchanged (pending set and phase in particular), so
the machine remains usable. -/
theorem C6_unknown_id (registry : List String)
    (executor : String → Json → Except String Json)
    (s : RSM.ReplyState) (id : String)
    (h : ∀ r ∈ s.pending, r.id ≠ id) :
    ((RSM.approve_tool registry executor s id).1.succeeded = false ∧
     (RSM.approve_tool registry executor s id).1.errorMessage.isSome = true ∧
     (RSM.approve_tool registry executor s id).2 = s) ∧
    ((RSM.deny_tool s id).1.succeeded = false ∧
     (RSM.deny_tool s id).1.errorMessage.isSome = true ∧
     (RSM.deny_tool s id).2 = s) := by
  have hfind : s.pending.find? (fun r => r.id == id) = none := by
    apply List.find?_eq_none.mpr
    intro r hr
    simp [h r hr]
  by_cases hp : s.phase = .waitingForToolApproval
  · constructor <;> simp [RSM.approve_tool, RSM.deny_tool, hp, hfind]
  · constructor <;> simp [RSM.approve_tool, RSM.deny_tool, hp]

/-- A concrete approval-waiting state with one pending calculator
request. -/
def sC6 : RSM.ReplyState :=
  { history := [{ role := .user, content := [.text "What is 42+58?"] }]
    pending := [{ id := "a", name := "calculator", args := .obj []
                  requiresApproval := true }]
    phase := .waitingForToolApproval, lastError := none
    currentMessageDelivered := false, execCount := 0 }

/-- **C6, witness.**  The theorem applied at the concrete state with the
unknown id `b`. -/
theorem C6_witness :
    (RSM.approve_tool ["calculator"] (fun _ _ => .ok (.str "100")) sC6 "b").2 = sC6 ∧
    (RSM.deny_tool sC6 "b").1.succeeded = false := by
  have h := C6_unknown_id ["calculator"] (fun _ _ => .ok (.str "100")) sC6 "b"
    (by intro r hr; simp [sC6] at hr; subst hr; decide)
  exact ⟨h.1.2.2, h.2.1⟩

/-! ## Claim C7 -/

/-- The ids of the tool-call requests among a content-item list, in
order. -/
def reqIdsItems : List RSM.ContentItem → List String
  | [] => []
  | .toolCallRequest id _ _ :: rest => id :: reqIdsItems rest
  | .text _ :: rest => reqIdsItems rest
  | .toolCallResult _ _ :: rest => reqIdsItems rest

/-- The ids of all tool-call requests across a message list, in
order. -/
def reqIdsMsgs (msgs : List RSM.Message) : List String :=
  (msgs.map (fun m => reqIdsItems m.content)).flatten

/-- Claim-side statement of the defect `create` must reject: the message
list contains a `ToolCallResult` whose id matches no prior
`ToolCallRequest` in the same turn (neither in an earlier message nor
earlier in the same message). -/
def HasUnmatchedResult (msgs : List RSM.Message) : Prop :=
  ∃ pre m post pre2 i outcome post2,
    msgs = pre ++ m :: post ∧
    m.content = pre2 ++ RSM.ContentItem.toolCallResult i outcome :: post2 ∧
    i ∉ reqIdsMsgs pre ++ reqIdsItems pre2

/-- A successful validation scan returns the seen set extended by the
request ids of the scanned items. -/
theorem validItems_some : ∀ (items : List RSM.ContentItem) (seen s' : List String),
    RSM.validItems seen items = some s' → s' = seen ++ reqIdsItems items
  | [], seen, s' => by
    intro h
    simp only [RSM.validItems, Option.some.injEq] at h
    simp [reqIdsItems, h]
  | .text t :: rest, seen, s' => by
    intro h
    simpa [reqIdsItems] using validItems_some rest seen s' h
  | .toolCallRequest id n a :: rest, seen, s' => by
    intro h
    have hh := validItems_some rest (seen ++ [id]) s' h
    simp [reqIdsItems, hh]
  | .toolCallResult id o :: rest, seen, s' => by
    intro h
    simp only [RSM.validItems] at h
    by_cases hc : id ∈ seen
    · rw [if_pos hc] at h
      simpa [reqIdsItems] using validItems_some rest seen s' h
    · rw [if_neg hc] at h
      exact absurd h (by simp)

/-- A validation scan that passes a result item must have seen its id:
the id is in the initial seen set or among the requests scanned before
it. -/
theorem validItems_result_mem : ∀ (pre2 : List RSM.ContentItem)
    (seen : List String) (i : String) (outcome : Except String Json)
    (post2 : List RSM.ContentItem),
    (RSM.validItems seen
      (pre2 ++ RSM.ContentItem.toolCallResult i outcome :: post2)).isSome →
    i ∈ seen ++ reqIdsItems pre2
  | [], seen, i, outcome, post2 => by
    intro h
    simp only [List.nil_append, RSM.validItems] at h
    by_cases hc : i ∈ seen
    · simp [reqIdsItems, hc]
    · rw [if_neg hc] at h
      exact absurd h (by simp)
  | .text t :: rest, seen, i, outcome, post2 => by
    intro h
    simpa [reqIdsItems] using validItems_result_mem rest seen i outcome post2 h
  | .toolCallRequest id n a :: rest, seen, i, outcome, post2 => by
    intro h
    have hh := validItems_result_mem rest (seen ++ [id]) i outcome post2 h
    simp only [reqIdsItems, List.mem_append, List.mem_cons, List.mem_singleton] at hh ⊢
    tauto
  | .toolCallResult id o :: rest, seen, i, outcome, post2 => by
    intro h
    simp only [List.cons_append, RSM.validItems] at h
    by_cases hc : id ∈ seen
    · rw [if_pos hc] at h
      simpa [reqIdsItems] using validItems_result_mem rest seen i outcome post2 h
    · rw [if_neg hc] at h
      exact absurd h (by simp)

/-- Validation of an appended list validates the suffix under the seen
set accumulated over the prefix. -/
theorem validMessages_append : ∀ (pre : List RSM.Message) (seen : List String)
    (rest : List RSM.Message),
    RSM.validMessages seen (pre ++ rest) = true →
    RSM.validMessages (seen ++ reqIdsMsgs pre) rest = true
  | [], seen, rest => by
    intro h
    simpa [reqIdsMsgs] using h
  | m :: pre', seen, rest => by
    intro h
    simp only [List.cons_append, RSM.validMessages] at h
    cases hv : RSM.validItems seen m.content with
    | none => rw [hv] at h; exact absurd h (by simp)
    | some seen2 =>
      rw [hv] at h
      have hseq := validItems_some m.content seen seen2 hv
      have hrec := validMessages_append pre' seen2 rest h
      rw [hseq] at hrec
      simpa [reqIdsMsgs, List.append_assoc] using hrec

/-- **C7.**  (Spec-modelled: `create` lives in the foreign library.)
Every initial message list containing a `ToolCallResult` whose id
matches no prior `ToolCallRequest` in the same turn is rejected by
`create` with `InvalidInput`; no state is returned. -/
theorem C7_create_rejects (msgs : List RSM.Message)
    (h : HasUnmatchedResult msgs) :
    RSM.create msgs = .error .invalidInput := by
  obtain ⟨pre, m, post, pre2, i, outcome, post2, hsplit, hcontent, hnotin⟩ := h
  have hne : msgs.isEmpty = false := by
    subst hsplit; cases pre <;> simp
  have hval : RSM.validMessages [] msgs = false := by
    cases hvv : RSM.validMessages [] msgs with
    | false => rfl
    | true =>
      exfalso
      subst hsplit
      have h3 := validMessages_append pre [] (m :: post) hvv
      simp only [List.nil_append] at h3
      simp only [RSM.validMessages] at h3
      cases hv2 : RSM.validItems (reqIdsMsgs pre) m.content with
      | none => rw [hv2] at h3; exact absurd h3 (by simp)
      | some s2 =>
        have hsome : (RSM.validItems (reqIdsMsgs pre) m.content).isSome := by
          rw [hv2]; rfl
        rw [hcontent] at hsome
        exact hnotin (validItems_result_mem pre2 (reqIdsMsgs pre) i outcome post2 hsome)
  simp [RSM.create, hne, hval]

/-- The message list the non-yielding harness effectively hands to
`create`: the user message plus a caller-supplied tool response whose
id was fabricated (the fallback id of `test_non_yielding.py`). -/
def msgsC7 : List RSM.Message :=
  [{ role := .user
     content := [.text "Tell me the current weather in San Francisco, California. Please use the weather tool for this."] },
   { role := .user
     content := [.toolCallResult "toolu_bdrk_01WBYCh6u5JehWvFmnkxJYXY"
       (.ok (.str "Weather in San Francisco is currently sunny, 72°F with light winds from the west."))] }]

/-- **C7, witness.**  The theorem applied at the harness's concrete
fabricated-id construction: `create` rejects it. -/
theorem C7_witness : RSM.create msgsC7 = .error .invalidInput :=
  C7_create_rejects msgsC7
    ⟨[{ role := .user
        content := [.text "Tell me the current weather in San Francisco, California. Please use the weather tool for this."] }],
     { role := .user
       content := [.toolCallResult "toolu_bdrk_01WBYCh6u5JehWvFmnkxJYXY"
         (.ok (.str "Weather in San Francisco is currently sunny, 72°F with light winds from the west."))] },
     [], [], "toolu_bdrk_01WBYCh6u5JehWvFmnkxJYXY",
     .ok (.str "Weather in San Francisco is currently sunny, 72°F with light winds from the west."),
     [], rfl, rfl, by simp [reqIdsMsgs, reqIdsItems]⟩

/-! ## Claim C8 -/

/-- **C8.**  (Spec-modelled.)  Denying a pending tool request appends a
`ToolCallResult{Err("denied")}` to history and never invokes the Tool
Executor Port: the executor call count is unchanged (only `approve_tool`
can increment it). -/
theorem C8_deny_no_executor (s : RSM.ReplyState) (id : String)
    (hp : s.phase = .waitingForToolApproval)
    (hm : (s.pending.find? (fun r => r.id == id)).isSome) :
    (RSM.deny_tool s id).1.succeeded = true ∧
    (RSM.deny_tool s id).2.history
      = s.history ++ [RSM.resultMessage id (.error "denied")] ∧
    (RSM.deny_tool s id).2.execCount = s.execCount := by
  cases hf : s.pending.find? (fun r => r.id == id) with
  | none => rw [hf] at hm; exact absurd hm (by simp)
  | some r => simp [RSM.deny_tool, hp, hf]

/-- **C8, witness.**  The theorem applied at the concrete
approval-waiting state `sC6`, denying the pending request `a`: the
`Err("denied")` result is appended and the executor count stays 0. -/
theorem C8_witness :
    (RSM.deny_tool sC6 "a").2.history
      = sC6.history ++ [RSM.resultMessage "a" (.error "denied")] ∧
    (RSM.deny_tool sC6 "a").2.execCount = 0 :=
  ⟨(C8_deny_no_executor sC6 "a" rfl (by decide)).2.1,
   (C8_deny_no_executor sC6 "a" rfl (by decide)).2.2⟩

end GooseFFI
